import Mathlib

/-!
Verification of the session & delegation control core of the `mcp-agents`
MCP server (TypeScript sources `src/index.ts`, `src/session-store.ts`,
`src/types.ts`).

The embedding is shallow:
* JavaScript `Map` objects become insertion-ordered association lists
  (`mapGet`/`mapSet`/`mapDelete` reproduce `Map.get`/`Map.set`/`Map.delete`,
  including the fact that `set` on an existing key keeps its position).
* `Date` timestamps become `Nat` values threaded in as a `now` argument.
* Thrown `AgentError`s become `Except AgentError` results (or an `Option
  AgentError` preflight value where the TypeScript throws before its `try`
  block); a `throw`/`catch` of the opaque SDK interrupt call becomes an
  explicit `interruptThrows : Bool` argument.
* The external Claude Agent SDK execution engine is an oracle: a list of
  stream messages plus an optional trailing thrown error (`EngineRun`), and
  for the batch coordinator a per-task outcome function.
-/

/-- Error codes of `AgentErrorCode` in `src/types.ts`. -/
inductive AgentErrorCode where
  | AGENT_NOT_FOUND
  | SESSION_NOT_FOUND
  | SESSION_ALREADY_ACTIVE
  | EXECUTION_FAILED
  | CANCELLED
  | INVALID_CONFIG
  | DELEGATION_DEPTH_EXCEEDED
  | DELEGATION_CYCLE_DETECTED
  | DELEGATION_FAILED
  deriving DecidableEq, Repr

/-- `AgentError` from `src/types.ts`: message, stable code and structured
details.  Of the `details` payload we keep the fields the control core
actually writes: the delegation `chain` and the offending `session_id` /
agent name (empty when the corresponding error does not carry them). -/
structure AgentError where
  code : AgentErrorCode
  message : String
  chain : List String
  session_id : String
  deriving DecidableEq, Repr

/-- `ExecutionContext` from `src/types.ts`. -/
structure ExecutionContext where
  depth : Nat
  agentStack : List String
  rootSessionId : String
  deriving DecidableEq, Repr

/-- `MAX_DELEGATION_DEPTH` from `src/types.ts`. -/
def MAX_DELEGATION_DEPTH : Nat := 5

/-- `createDefaultContext` from `src/index.ts` (the TypeScript default for
`sessionId` is the empty string; callers that rely on the default pass `""`
explicitly here). -/
def createDefaultContext (agentName : String) (sessionId : String) :
    ExecutionContext :=
  { depth := 0, agentStack := [agentName], rootSessionId := sessionId }

/-- `createChildContext` from `src/index.ts`: depth check first, then cycle
check, otherwise the derived child context. -/
def createChildContext (parentContext : ExecutionContext)
    (childAgentName : String) : Except AgentError ExecutionContext :=
  let newDepth := parentContext.depth + 1
  if newDepth > MAX_DELEGATION_DEPTH then
    .error
      { code := .DELEGATION_DEPTH_EXCEEDED
        message := "Delegation depth limit exceeded (max: " ++
          toString MAX_DELEGATION_DEPTH ++ "). Chain: " ++
          String.intercalate " → " parentContext.agentStack ++ " → " ++
          childAgentName
        chain := parentContext.agentStack ++ [childAgentName]
        session_id := "" }
  else if parentContext.agentStack.contains childAgentName then
    .error
      { code := .DELEGATION_CYCLE_DETECTED
        message := "Delegation cycle detected: " ++ childAgentName ++
          " is already in the call chain. Chain: " ++
          String.intercalate " → " parentContext.agentStack ++ " → " ++
          childAgentName
        chain := parentContext.agentStack ++ [childAgentName]
        session_id := "" }
  else
    .ok
      { depth := newDepth
        agentStack := parentContext.agentStack ++ [childAgentName]
        rootSessionId := parentContext.rootSessionId }

/-- Repeated descent: derive a child context for each agent of the list in
turn, propagating the first failure (`createChildContext` chained). -/
def descendAll (ctx : ExecutionContext) :
    List String → Except AgentError ExecutionContext
  | [] => .ok ctx
  | a :: rest => do
      let c ← createChildContext ctx a
      descendAll c rest

/-- The code of the error of an `Except AgentError` result, if any. -/
def errCode {α : Type} : Except AgentError α → Option AgentErrorCode
  | .error e => some e.code
  | .ok _ => none

/-- The reported chain of the error of an `Except AgentError` result. -/
def errChain {α : Type} : Except AgentError α → Option (List String)
  | .error e => some e.chain
  | .ok _ => none

/-! ### JavaScript `Map` as an insertion-ordered association list -/

/-- `Map.prototype.get`. -/
def mapGet {α : Type} (m : List (String × α)) (k : String) : Option α :=
  (m.find? (fun p => p.1 == k)).map (fun p => p.2)

/-- `Map.prototype.set`: updates the value in place when the key exists
(keeping its insertion position, i.e. replacing the first — with a `Map`'s
unique keys, the only — occurrence), otherwise appends. -/
def mapSet {α : Type} (m : List (String × α)) (k : String) (v : α) :
    List (String × α) :=
  match m with
  | [] => [(k, v)]
  | p :: rest => if p.1 == k then (k, v) :: rest else p :: mapSet rest k v

/-- `Map.prototype.delete` (the state part; existence is `mapHasKey`). -/
def mapDelete {α : Type} (m : List (String × α)) (k : String) :
    List (String × α) :=
  m.filter (fun p => !(p.1 == k))

/-- `Map.prototype.has`. -/
def mapHasKey {α : Type} (m : List (String × α)) (k : String) : Bool :=
  m.any (fun p => p.1 == k)

/-! ### Session store (`src/session-store.ts`) -/

/-- The SDK `Query` handle is only ever stored, compared for presence and
interrupted; an abstract token suffices. -/
abbrev Query : Type := Nat

/-- `SessionInfo` from `src/types.ts` (timestamps as `Nat`). -/
structure SessionInfo where
  session_id : String
  agent : String
  initial_task : String
  created_at : Nat
  last_active : Nat
  is_active : Bool
  deriving DecidableEq, Repr

/-- The two maps of `SessionStore` in `src/session-store.ts`. -/
structure SessionStore where
  sessions : List (String × SessionInfo)
  activeQueries : List (String × Query)
  deriving DecidableEq

/-- A freshly constructed `SessionStore`. -/
def emptyStore : SessionStore := { sessions := [], activeQueries := [] }

/-- `SessionStore.save`: create or update a session entry; `is_active` is
set iff a query handle is supplied, and the handle is registered only when
supplied (a handle-less save does not touch `activeQueries`). -/
def SessionStore.save (st : SessionStore) (sessionId agent task : String)
    (q : Option Query) (now : Nat) : SessionStore :=
  let existing := mapGet st.sessions sessionId
  let info : SessionInfo :=
    { session_id := sessionId
      agent := agent
      initial_task := match existing with
        | some e => e.initial_task
        | none => task
      created_at := match existing with
        | some e => e.created_at
        | none => now
      last_active := now
      is_active := q.isSome }
  { sessions := mapSet st.sessions sessionId info
    activeQueries := match q with
      | some query => mapSet st.activeQueries sessionId query
      | none => st.activeQueries }

/-- `SessionStore.complete`: mark inactive (if the record exists), refresh
`last_active`, and always drop the query handle. -/
def SessionStore.complete (st : SessionStore) (sessionId : String)
    (now : Nat) : SessionStore :=
  { sessions := match mapGet st.sessions sessionId with
      | some s =>
          mapSet st.sessions sessionId
            { s with is_active := false, last_active := now }
      | none => st.sessions
    activeQueries := mapDelete st.activeQueries sessionId }

/-- `SessionStore.has`. -/
def SessionStore.has (st : SessionStore) (sessionId : String) : Bool :=
  mapHasKey st.sessions sessionId

/-- `SessionStore.isActive`: `this.sessions.get(sessionId)?.is_active ?? false`. -/
def SessionStore.isActive (st : SessionStore) (sessionId : String) : Bool :=
  match mapGet st.sessions sessionId with
  | some s => s.is_active
  | none => false

/-- `SessionStore.cancel`: when an active handle exists, interrupt it and —
whether the interrupt resolves or throws (`interruptThrows`) — mark the
session complete and return `true`; otherwise return `false` untouched. -/
def SessionStore.cancel (st : SessionStore) (sessionId : String)
    (interruptThrows : Bool) (now : Nat) : SessionStore × Bool :=
  match mapGet st.activeQueries sessionId with
  | some _ =>
      if interruptThrows then
        -- catch branch: the error is logged, the session is still completed
        (st.complete sessionId now, true)
      else
        (st.complete sessionId now, true)
  | none => (st, false)

/-- `SessionStore.remove`. -/
def SessionStore.remove (st : SessionStore) (sessionId : String) :
    SessionStore × Bool :=
  ({ sessions := mapDelete st.sessions sessionId
     activeQueries := mapDelete st.activeQueries sessionId },
    mapHasKey st.sessions sessionId)

/-- `SessionStore.clear`: best-effort interrupt of every active handle
(errors swallowed, no state effect), then drop everything. -/
def SessionStore.clear (_st : SessionStore) : SessionStore := emptyStore

/-- Descending order on `last_active` used by `SessionStore.list`
(`(a, b) => b.last_active.getTime() - a.last_active.getTime()`). -/
def lastActiveDescOrder (a b : SessionInfo) : Prop :=
  b.last_active ≤ a.last_active

instance : DecidableRel lastActiveDescOrder :=
  fun a b => Nat.decLe b.last_active a.last_active

instance : IsTotal SessionInfo lastActiveDescOrder :=
  ⟨fun a b => Nat.le_total b.last_active a.last_active⟩

instance : IsTrans SessionInfo lastActiveDescOrder :=
  ⟨fun _ _ _ h1 h2 => Nat.le_trans h2 h1⟩

/-- The filtering phase of `SessionStore.list`, before sorting.  The
JavaScript guards `if (filter?.agent)` and `if (filter?.active_only)` are
truthiness tests: an empty-string agent filter and a `false`/absent
`active_only` flag both skip the corresponding filter. -/
def listFiltered (st : SessionStore) (agentFilter : Option String)
    (activeOnly : Option Bool) : List SessionInfo :=
  let sessions := st.sessions.map (fun p => p.2)
  let sessions := match agentFilter with
    | some a => if a == "" then sessions else
        sessions.filter (fun s => s.agent == a)
    | none => sessions
  match activeOnly with
  | some true => sessions.filter (fun s => s.is_active)
  | _ => sessions

/-- `SessionStore.list`: filter, then sort by `last_active` descending.
ECMAScript `Array.prototype.sort` is a stable sort, so for the total
preorder used here its result is that of any stable sort; we use
`List.insertionSort`, which is stable. -/
def SessionStore.list (st : SessionStore) (agentFilter : Option String)
    (activeOnly : Option Bool) : List SessionInfo :=
  List.insertionSort lastActiveDescOrder (listFiltered st agentFilter activeOnly)

/-- One mutating session-store operation, for reachability statements. -/
inductive StoreOp where
  | save (sessionId agent task : String) (q : Option Query) (now : Nat)
  | complete (sessionId : String) (now : Nat)
  | cancel (sessionId : String) (interruptThrows : Bool) (now : Nat)
  | remove (sessionId : String)
  | clear

/-- Apply one operation to a store state. -/
def applyOp (st : SessionStore) : StoreOp → SessionStore
  | .save sid a t q now => st.save sid a t q now
  | .complete sid now => st.complete sid now
  | .cancel sid b now => (st.cancel sid b now).1
  | .remove sid => (st.remove sid).1
  | .clear => st.clear

/-- The store state after a sequence of operations from a fresh store. -/
def runOps (ops : List StoreOp) : SessionStore :=
  ops.foldl applyOp emptyStore

/-- Both directions of the spec's handle invariant: a session record is
marked active exactly when a query handle is registered for its id. -/
def StoreInv (st : SessionStore) : Prop :=
  ∀ sid info, mapGet st.sessions sid = some info →
    (info.is_active = true ↔ (mapGet st.activeQueries sid).isSome = true)

/-- The one-directional invariant: an active record always has a live
handle registered. -/
def StoreInvActive (st : SessionStore) : Prop :=
  ∀ sid info, mapGet st.sessions sid = some info →
    info.is_active = true → (mapGet st.activeQueries sid).isSome = true

/-! ### Agent invoker (`runAgent` in `src/index.ts`) -/

/-- JavaScript `x || d` for a `string | undefined` value `x`. -/
def jsOrStr (v : Option String) (d : String) : String :=
  match v with
  | some s => if s == "" then d else s
  | none => d

/-- JavaScript `s || d` for a string `s`. -/
def strOr (s d : String) : String :=
  if s == "" then d else s

/-- JavaScript truthiness of a `string | undefined` value. -/
def truthy (v : Option String) : Bool :=
  match v with
  | some s => !(s == "")
  | none => false

/-- The SDK stream messages, restricted to the variants `processMessage`
in `src/index.ts` distinguishes.  An `assistant` message carries the
`file_path` targets of its `Write`/`Edit` tool-use blocks. -/
inductive SDKMessage where
  | init (session_id : String)
  | resultSuccess (result : String)
  | resultFailure (errors : List String) (subtype : String)
  | assistant (writes : List String)
  | other
  deriving DecidableEq, Repr

/-- Whether a message is the session-established (`system`/`init`) event. -/
def isInit : SDKMessage → Bool
  | .init _ => true
  | _ => false

/-- One run of the external engine: the messages its stream yields, plus an
optional error thrown by the stream after those messages. -/
structure EngineRun where
  messages : List SDKMessage
  thrown : Option String
  deriving DecidableEq, Repr

/-- `RunAgentParams` from `src/types.ts`. -/
structure RunAgentParams where
  agent : String
  task : String
  resume : Option String
  fork : Option Bool
  deriving DecidableEq, Repr

/-- `AgentResult` from `src/types.ts`. -/
structure AgentResult where
  success : Bool
  session_id : String
  summary : String
  artifacts : Option (List String)
  error : Option String
  deriving DecidableEq, Repr

/-- The mutable registries `runAgent` touches: the session store and the
global `executionContexts` map. -/
structure AgentsState where
  store : SessionStore
  contexts : List (String × ExecutionContext)
  deriving DecidableEq

/-- The loop-local mutable variables of `runAgent`'s stream consumption. -/
structure LoopState where
  sessionId : String
  result : String
  artifacts : List String
  errorMessage : Option String
  ectx : Option ExecutionContext
  st : AgentsState

/-- One iteration of `runAgent`'s `for await` loop: the inline
`system`/`init` context registration followed by `processMessage`. -/
def stepMessage (agentName taskText : String) (q : Query) (now : Nat)
    (s : LoopState) (m : SDKMessage) : LoopState :=
  match m with
  | .init sid =>
      let ectx := match s.ectx with
        | none => createDefaultContext agentName sid
        | some c =>
            if c.rootSessionId == "" then { c with rootSessionId := sid }
            else c
      { s with
        sessionId := sid
        ectx := some ectx
        st :=
          { store := s.st.store.save sid agentName taskText (some q) now
            contexts := mapSet s.st.contexts sid ectx } }
  | .resultSuccess r => { s with result := r }
  | .resultFailure errors sub =>
      -- `errors.join('; ') || message.subtype`
      { s with errorMessage := some (strOr (String.intercalate "; " errors) sub) }
  | .assistant writes => { s with artifacts := s.artifacts ++ writes }
  | .other => s

/-- The unconditional cleanup of `runAgent` (both exit paths): when a
session id was established, drop its execution context and complete it. -/
def cleanupRun (s : LoopState) (now : Nat) : AgentsState :=
  if s.sessionId == "" then s.st
  else
    { store := s.st.store.complete s.sessionId now
      contexts := mapDelete s.st.contexts s.sessionId }

/-- The validations `runAgent` performs before its `try` block (and hence
before any call into the execution engine): agent lookup, dangling resume
id, resume of an active session.  `params.resume &&` is a truthiness
guard, so an empty-string resume id skips both session checks. -/
def runAgentPreflight (knownAgents : List String) (store : SessionStore)
    (params : RunAgentParams) : Option AgentError :=
  if !(knownAgents.contains params.agent) then
    some
      { code := .AGENT_NOT_FOUND
        message := "Agent not found: \"" ++ params.agent ++
          "\". Available: " ++ strOr (String.intercalate ", " knownAgents) "none"
        chain := []
        session_id := "" }
  else if truthy params.resume && !(store.has (params.resume.getD "")) then
    some
      { code := .SESSION_NOT_FOUND
        message := "Session not found: " ++ params.resume.getD ""
        chain := []
        session_id := params.resume.getD "" }
  else if truthy params.resume && store.isActive (params.resume.getD "") then
    some
      { code := .SESSION_ALREADY_ACTIVE
        message := "Session " ++ params.resume.getD "" ++
          " is already active. Use cancel_agent first."
        chain := []
        session_id := params.resume.getD "" }
  else
    none

/-- `runAgent` from `src/index.ts`.  A thrown precondition `AgentError` is
an `Except.error`; engine failures are caught and become an `AgentResult`
with `success := false`.  The returned state is the updated pair of
registries. -/
def runAgent (knownAgents : List String) (engine : EngineRun) (q : Query)
    (now : Nat) (st0 : AgentsState) (params : RunAgentParams)
    (context : Option ExecutionContext) :
    Except AgentError AgentResult × AgentsState :=
  match runAgentPreflight knownAgents st0.store params with
  | some e => (.error e, st0)
  | none =>
      let s0 : LoopState :=
        { sessionId := ""
          result := ""
          artifacts := []
          errorMessage := none
          ectx := context
          st := st0 }
      let s := engine.messages.foldl
        (fun acc m => stepMessage params.agent params.task q now acc m) s0
      match engine.thrown with
      | none =>
          (.ok
            { success := s.errorMessage.isNone
              session_id := s.sessionId
              summary := strOr s.result
                (match s.errorMessage with
                  | some e => "Error: " ++ e
                  | none => "No result")
              artifacts := if s.artifacts.length > 0 then some s.artifacts else none
              error := s.errorMessage },
            cleanupRun s now)
      | some m =>
          (.ok
            { success := false
              session_id := strOr s.sessionId "unknown"
              summary := "Agent execution failed: " ++ m
              artifacts := none
              error := some m },
            cleanupRun s now)

/-! ### Delegation (`handleDelegation` in `src/index.ts`) -/

/-- `DelegateToAgentParams` from `src/types.ts`; `context_data` is kept as
its serialized JSON text, `none` when absent or empty. -/
structure DelegateToAgentParams where
  agent : String
  task : String
  context_data : Option String

/-- The `{depth, chain}` context snapshot embedded in a delegation result. -/
structure DelegationContextSnapshot where
  depth : Nat
  chain : List String
  deriving DecidableEq, Repr

/-- `DelegationResult` from `src/types.ts`. -/
structure DelegationResult where
  success : Bool
  agent : String
  session_id : String
  result : String
  artifacts : Option (List String)
  error : Option String
  context : DelegationContextSnapshot
  deriving DecidableEq, Repr

/-- The task enrichment `handleDelegationWithContext` performs when
`context_data` is present and non-empty. -/
def enhancedDelegationTask (task : String) (context_data : Option String) :
    String :=
  match context_data with
  | some j => task ++ "\n\n---\n**Context Data:**\n```json\n" ++ j ++ "\n```"
  | none => task

/-- `handleDelegationWithContext` from `src/index.ts`, with the nested
`runAgent` call abstracted as an oracle `run` mapping the target agent and
enhanced task to either a result or a thrown error message.  Both a
`createChildContext` failure and a thrown nested-run error land in the
`catch` branch, producing a failed `DelegationResult` with the
parent-derived context snapshot. -/
def handleDelegationWithContext
    (run : String → String → Except String AgentResult)
    (params : DelegateToAgentParams) (parentContext : ExecutionContext) :
    DelegationResult :=
  match createChildContext parentContext params.agent with
  | .error e =>
      { success := false
        agent := params.agent
        session_id := ""
        result := ""
        artifacts := none
        error := some e.message
        context :=
          { depth := parentContext.depth + 1
            chain := parentContext.agentStack ++ [params.agent] } }
  | .ok childContext =>
      match run params.agent (enhancedDelegationTask params.task params.context_data) with
      | .ok result =>
          { success := result.success
            agent := params.agent
            session_id := result.session_id
            result := result.summary
            artifacts := result.artifacts
            error := result.error
            context :=
              { depth := childContext.depth
                chain := childContext.agentStack } }
      | .error errMsg =>
          { success := false
            agent := params.agent
            session_id := ""
            result := ""
            artifacts := none
            error := some errMsg
            context :=
              { depth := parentContext.depth + 1
                chain := parentContext.agentStack ++ [params.agent] } }

/-- `handleDelegation` from `src/index.ts`: look up the calling session's
context; when none is registered, log the anomaly and fall back to a
default root context rooted at the calling session id. -/
def handleDelegation (run : String → String → Except String AgentResult)
    (contexts : List (String × ExecutionContext))
    (params : DelegateToAgentParams) (parentSessionId : String) :
    DelegationResult :=
  match mapGet contexts parentSessionId with
  | none =>
      handleDelegationWithContext run params
        (createDefaultContext "unknown" parentSessionId)
  | some parentContext => handleDelegationWithContext run params parentContext

/-! ### Batch coordinator (`runAgentsBatch` in `src/index.ts`) -/

/-- One task spec of `RunAgentsBatchParams`. -/
structure BatchTask where
  agent : String
  task : String
  id : Option String
  deriving DecidableEq, Repr

/-- `BatchTaskResult` from `src/types.ts` (durations as `Nat`). -/
structure BatchTaskResult where
  id : String
  success : Bool
  session_id : String
  summary : String
  artifacts : Option (List String)
  error : Option String
  duration_ms : Nat
  deriving DecidableEq, Repr

/-- `BatchResult` from `src/types.ts`. -/
structure BatchResult where
  all_success : Bool
  succeeded : Nat
  failed : Nat
  total_duration_ms : Nat
  results : List BatchTaskResult
  deriving DecidableEq, Repr

/-- A placeholder result, used only as the `getD` default in statements. -/
def defaultBatchTaskResult : BatchTaskResult :=
  { id := ""
    success := false
    session_id := ""
    summary := ""
    artifacts := none
    error := none
    duration_ms := 0 }

/-- A placeholder task, used only as the `getD` default in statements. -/
def defaultBatchTask : BatchTask := { agent := "", task := "", id := none }

/-- `Array.prototype.map` with the element index, from a start offset. -/
def mapWithIndexFrom {α β : Type} (f : Nat → α → β) :
    Nat → List α → List β
  | _, [] => []
  | i, a :: as => f i a :: mapWithIndexFrom f (i + 1) as

/-- `Array.prototype.map((x, i) => ...)`. -/
def mapWithIndex {α β : Type} (f : Nat → α → β) (l : List α) : List β :=
  mapWithIndexFrom f 0 l

/-- One task closure of `runAgentsBatch`: await the nested `runAgent`
(outcome given by the oracle `exec`), converting a thrown error into a
failed task result; the per-task duration is its own measurement, given by
the oracle `dur`.  `task.id || ...` is a truthiness fallback. -/
def runTask (exec : Nat → BatchTask → Except String AgentResult)
    (dur : Nat → Nat) (index : Nat) (task : BatchTask) : BatchTaskResult :=
  let taskId := jsOrStr task.id ("task-" ++ toString index)
  match exec index task with
  | .ok result =>
      { id := taskId
        success := result.success
        session_id := result.session_id
        summary := result.summary
        artifacts := result.artifacts
        error := result.error
        duration_ms := dur index }
  | .error errMsg =>
      { id := taskId
        success := false
        session_id := "failed"
        summary := "Failed: " ++ errMsg
        artifacts := none
        error := some errMsg
        duration_ms := dur index }

/-- `runAgentsBatch` from `src/index.ts`: launch every task, wait for all
of them (`Promise.all` never short-circuits because `runTask` catches), and
aggregate. -/
def runAgentsBatch (exec : Nat → BatchTask → Except String AgentResult)
    (dur : Nat → Nat) (totalDuration : Nat) (tasks : List BatchTask) :
    BatchResult :=
  let results := mapWithIndex (fun i t => runTask exec dur i t) tasks
  let succeeded := (results.filter (fun r => r.success)).length
  let failed := (results.filter (fun r => !r.success)).length
  { all_success := failed == 0
    succeeded := succeeded
    failed := failed
    total_duration_ms := totalDuration
    results := results }

/-- Concrete session record used in witness instantiations. -/
def c6InfoW : SessionInfo :=
  { session_id := "s", agent := "a", initial_task := "orig",
    created_at := 1, last_active := 2, is_active := false }

/-- Concrete invoker state used in witness instantiations. -/
def c6StateW : AgentsState :=
  { store := { sessions := [("s", c6InfoW)], activeQueries := [] }
    contexts := [] }

/-- Concrete run parameters used in witness instantiations. -/
def c6ParamsW : RunAgentParams :=
  { agent := "a", task := "follow-up", resume := some "s", fork := none }

/-- Concrete engine run used in witness instantiations. -/
def c6EngineW : EngineRun := { messages := [.init "s"], thrown := none }

/-- Concrete engine run (stream throws after one content message) used in
witness instantiations. -/
def c10EngineW : EngineRun :=
  { messages := [.resultSuccess "partial"], thrown := some "ECONN" }

/-- Concrete delegated-run oracle used in witness instantiations. -/
def c9RunW : String → String → Except String AgentResult := fun _ _ =>
  .ok { success := true, session_id := "child-sess", summary := "done",
        artifacts := none, error := none }

/-- Concrete delegation parameters used in witness instantiations. -/
def c9ParamsW : DelegateToAgentParams :=
  { agent := "coder", task := "subtask", context_data := none }

/-- Concrete task outcome oracle used in witness instantiations: task 1
fails by throwing, all other tasks succeed. -/
def c5ExecW : Nat → BatchTask → Except String AgentResult := fun i _ =>
  if i == 1 then .error "boom"
  else .ok { success := true, session_id := "sid", summary := "ok",
             artifacts := none, error := none }

/-- Concrete batch used in witness instantiations. -/
def c5TasksW : List BatchTask :=
  [{ agent := "a", task := "t0", id := some "research" },
   { agent := "b", task := "t1", id := none },
   { agent := "c", task := "t2", id := some "test" }]

/-- Outcome of the `run_agents_batch` tool handler. -/
inductive BatchHandlerOutcome where
  | rejected (message : String)
  | executed (result : BatchResult)
  deriving DecidableEq, Repr

/-- The `run_agents_batch` case of the tool-call dispatcher in
`src/index.ts`: reject an absent/empty task list and a list of more than 10
tasks, otherwise run the batch. -/
def runAgentsBatchHandler (exec : Nat → BatchTask → Except String AgentResult)
    (dur : Nat → Nat) (totalDuration : Nat)
    (tasks : Option (List BatchTask)) : BatchHandlerOutcome :=
  match tasks with
  | none => .rejected "Missing required parameter: tasks (non-empty array)"
  | some ts =>
      if ts.length == 0 then
        .rejected "Missing required parameter: tasks (non-empty array)"
      else if ts.length > 10 then
        .rejected "Maximum 10 tasks per batch"
      else
        .executed (runAgentsBatch exec dur totalDuration ts)

/-! ## Helper lemmas: the map embedding -/

theorem mapGet_cons {α : Type} (p : String × α) (m : List (String × α)) (k : String) :
    mapGet (p :: m) k = if p.1 = k then some p.2 else mapGet m k := by
  by_cases h : p.1 = k <;> simp [mapGet, List.find?_cons, h]

theorem mapGet_mapSet_self {α : Type} (m : List (String × α)) (k : String) (v : α) :
    mapGet (mapSet m k v) k = some v := by
  induction m with
  | nil => simp [mapSet, mapGet_cons]
  | cons p rest ih =>
      by_cases hp : p.1 = k
      · simp [mapSet, hp, mapGet_cons]
      · have hb : (p.1 == k) = false := by simp [hp]
        simp [mapSet, hb, mapGet_cons, hp, ih]

theorem mapGet_mapSet_ne {α : Type} (m : List (String × α)) (k k' : String) (v : α)
    (h : ¬ (k' = k)) : mapGet (mapSet m k v) k' = mapGet m k' := by
  have hk : ¬ ((k : String) = k') := fun hh => h hh.symm
  induction m with
  | nil => simp [mapSet, mapGet_cons, hk]
  | cons p rest ih =>
      by_cases hp : p.1 = k
      · have hpk' : ¬ (p.1 = k') := by rw [hp]; exact hk
        simp [mapSet, hp, mapGet_cons, hk, hpk']
      · have hb : (p.1 == k) = false := by simp [hp]
        by_cases hpk' : p.1 = k'
        · simp [mapSet, hb, mapGet_cons, hpk', h]
        · simp [mapSet, hb, mapGet_cons, hpk', ih]

theorem mapGet_mapDelete_self {α : Type} (m : List (String × α)) (k : String) :
    mapGet (mapDelete m k) k = none := by
  induction m with
  | nil => rfl
  | cons p rest ih =>
      by_cases hp : p.1 = k
      · simpa [mapDelete, List.filter_cons, hp] using ih
      · have hb : (p.1 == k) = false := by simp [hp]
        simpa [mapDelete, List.filter_cons, hb, mapGet_cons, hp] using ih

theorem mapGet_mapDelete_ne {α : Type} (m : List (String × α)) (k k' : String)
    (h : ¬ (k' = k)) : mapGet (mapDelete m k) k' = mapGet m k' := by
  induction m with
  | nil => rfl
  | cons p rest ih =>
      have hkk' : ¬ ((k : String) = k') := fun hh => h hh.symm
      by_cases hp : p.1 = k
      · have hpk' : ¬ (p.1 = k') := by rw [hp]; exact hkk'
        simpa [mapDelete, List.filter_cons, hp, mapGet_cons, hpk', hkk'] using ih
      · have hb : (p.1 == k) = false := by simp [hp]
        by_cases hpk' : p.1 = k'
        · simp [mapDelete, List.filter_cons, hb, mapGet_cons, hpk', h]
        · simpa [mapDelete, List.filter_cons, hb, mapGet_cons, hpk'] using ih

theorem mapHasKey_eq_isSome {α : Type} (m : List (String × α)) (k : String) :
    mapHasKey m k = (mapGet m k).isSome := by
  induction m with
  | nil => rfl
  | cons p rest ih =>
      by_cases hp : p.1 = k
      · simp [mapHasKey, hp, mapGet_cons]
      · have hb : (p.1 == k) = false := by simp [hp]
        simpa [mapHasKey, hb, hp, mapGet_cons] using ih

/-! ## Helper lemmas: delegation context -/

theorem exceptBind_ok {α β : Type} (v : α)
    (f : α → Except AgentError β) :
    (do let x ← Except.ok v; f x) = f v := rfl

theorem exceptBind_error {α β : Type} (e : AgentError)
    (f : α → Except AgentError β) :
    (do let x ← Except.error e; f x) = (Except.error e : Except AgentError β) := rfl

theorem createChildContext_ok (ctx : ExecutionContext) (a : String)
    (hd : ctx.depth + 1 ≤ MAX_DELEGATION_DEPTH) (hm : a ∉ ctx.agentStack) :
    createChildContext ctx a =
      .ok { depth := ctx.depth + 1
            agentStack := ctx.agentStack ++ [a]
            rootSessionId := ctx.rootSessionId } := by
  have h1 : ¬ (ctx.depth + 1 > MAX_DELEGATION_DEPTH) := by omega
  simp [createChildContext, h1, hm]

theorem descendAll_ok (l : List String) : ∀ (ctx : ExecutionContext),
    (∀ x ∈ l, x ∉ ctx.agentStack) → l.Nodup →
    ctx.depth + l.length ≤ MAX_DELEGATION_DEPTH →
    descendAll ctx l =
      .ok { depth := ctx.depth + l.length
            agentStack := ctx.agentStack ++ l
            rootSessionId := ctx.rootSessionId } := by
  induction l with
  | nil => intro ctx _ _ _; simp [descendAll]
  | cons a rest ih =>
      intro ctx hfresh hnd hle
      have hA : a ∉ ctx.agentStack := hfresh a (List.mem_cons_self a rest)
      have hd : ctx.depth + 1 ≤ MAX_DELEGATION_DEPTH := by
        simp only [List.length_cons] at hle; omega
      have hstep := createChildContext_ok ctx a hd hA
      have hnd' := List.nodup_cons.mp hnd
      have hfresh' : ∀ x ∈ rest, x ∉ ctx.agentStack ++ [a] := by
        intro x hx
        simp only [List.mem_append, List.mem_singleton]
        rintro (h | rfl)
        · exact hfresh x (List.mem_cons_of_mem a hx) h
        · exact hnd'.1 hx
      have hrec := ih { depth := ctx.depth + 1
                        agentStack := ctx.agentStack ++ [a]
                        rootSessionId := ctx.rootSessionId }
        hfresh' hnd'.2
        (by show ctx.depth + 1 + rest.length ≤ MAX_DELEGATION_DEPTH
            simp only [List.length_cons] at hle; omega)
      simp only [descendAll, hstep]
      rw [exceptBind_ok, hrec]
      simp only [Except.ok.injEq, ExecutionContext.mk.injEq, List.length_cons,
        List.append_assoc, List.singleton_append]
      exact ⟨by omega, by simp⟩

theorem descendAll_depth_err (l : List String) : ∀ (ctx : ExecutionContext),
    (∀ x ∈ l, x ∉ ctx.agentStack) → l.Nodup →
    ctx.depth ≤ MAX_DELEGATION_DEPTH →
    MAX_DELEGATION_DEPTH < ctx.depth + l.length →
    errCode (descendAll ctx l) = some .DELEGATION_DEPTH_EXCEEDED := by
  induction l with
  | nil =>
      intro ctx _ _ hle hgt
      simp only [List.length_nil, Nat.add_zero] at hgt
      omega
  | cons a rest ih =>
      intro ctx hfresh hnd hle hgt
      by_cases hdeep : MAX_DELEGATION_DEPTH < ctx.depth + 1
      · have hgt' : ctx.depth + 1 > MAX_DELEGATION_DEPTH := hdeep
        simp [descendAll, createChildContext, hgt', errCode, exceptBind_error]
      · have hd : ctx.depth + 1 ≤ MAX_DELEGATION_DEPTH := by omega
        have hA : a ∉ ctx.agentStack := hfresh a (List.mem_cons_self a rest)
        have hstep := createChildContext_ok ctx a hd hA
        have hnd' := List.nodup_cons.mp hnd
        have hfresh' : ∀ x ∈ rest, x ∉ ctx.agentStack ++ [a] := by
          intro x hx
          simp only [List.mem_append, List.mem_singleton]
          rintro (h | rfl)
          · exact hfresh x (List.mem_cons_of_mem a hx) h
          · exact hnd'.1 hx
        have hrec := ih { depth := ctx.depth + 1
                          agentStack := ctx.agentStack ++ [a]
                          rootSessionId := ctx.rootSessionId }
          hfresh' hnd'.2
          (by show ctx.depth + 1 ≤ MAX_DELEGATION_DEPTH; omega)
          (by show MAX_DELEGATION_DEPTH < ctx.depth + 1 + rest.length
              simp only [List.length_cons] at hgt; omega)
        simp only [descendAll, hstep]
        rw [exceptBind_ok]
        exact hrec

/-- C1: `createChildContext` fails with `DELEGATION_DEPTH_EXCEEDED` exactly
when `parent.depth + 1` exceeds `MAX_DELEGATION_DEPTH = 5`, for every
parent and child (in particular a descent that is both too deep and cyclic
reports depth-exceeded, since the depth check runs first); consequently a
chain of fresh agents descended from a root context succeeds for the first
5 descents and fails with `DELEGATION_DEPTH_EXCEEDED` exactly at descent
number 6 (depth 5 → 6), never earlier. -/
theorem c1_depth_limit (parent : ExecutionContext) (child : String)
    (a sid : String) (l : List String) (hnd : (a :: l).Nodup) :
    (errCode (createChildContext parent child) =
        some .DELEGATION_DEPTH_EXCEEDED ↔
      parent.depth + 1 > MAX_DELEGATION_DEPTH) ∧
    (l.length ≤ MAX_DELEGATION_DEPTH →
      descendAll (createDefaultContext a sid) l =
        .ok { depth := l.length, agentStack := a :: l, rootSessionId := sid }) ∧
    (l.length = MAX_DELEGATION_DEPTH + 1 →
      errCode (descendAll (createDefaultContext a sid) l) =
        some .DELEGATION_DEPTH_EXCEEDED) := by
  have hnd' := List.nodup_cons.mp hnd
  have hfresh : ∀ x ∈ l, x ∉ (createDefaultContext a sid).agentStack := by
    intro x hx
    simp only [createDefaultContext, List.mem_singleton]
    rintro rfl
    exact hnd'.1 hx
  refine ⟨?_, ?_, ?_⟩
  · constructor
    · intro h
      by_contra hle
      have hle' : ¬ (parent.depth + 1 > MAX_DELEGATION_DEPTH) := hle
      by_cases hc : child ∈ parent.agentStack <;>
        simp [createChildContext, hle', hc, errCode] at h
    · intro h
      simp [createChildContext, h, errCode]
  · intro hle
    have := descendAll_ok l (createDefaultContext a sid) hfresh hnd'.2
      (by show 0 + l.length ≤ MAX_DELEGATION_DEPTH; omega)
    simpa [createDefaultContext] using this
  · intro hlen
    exact descendAll_depth_err l (createDefaultContext a sid) hfresh hnd'.2
      (Nat.zero_le _)
      (by show MAX_DELEGATION_DEPTH < 0 + l.length; omega)

theorem c1_depth_limit_witness :
    (["a0", "a1", "a2", "a3", "a4", "a5", "a6"].Nodup) ∧
    ((errCode (createChildContext { depth := 5, agentStack := ["x"], rootSessionId := "r" } "y") =
        some .DELEGATION_DEPTH_EXCEEDED ↔
      (5 : Nat) + 1 > MAX_DELEGATION_DEPTH) ∧
    (["a1", "a2", "a3", "a4", "a5", "a6"].length ≤ MAX_DELEGATION_DEPTH →
      descendAll (createDefaultContext "a0" "s") ["a1", "a2", "a3", "a4", "a5", "a6"] =
        .ok { depth := ["a1", "a2", "a3", "a4", "a5", "a6"].length
              agentStack := "a0" :: ["a1", "a2", "a3", "a4", "a5", "a6"]
              rootSessionId := "s" }) ∧
    (["a1", "a2", "a3", "a4", "a5", "a6"].length = MAX_DELEGATION_DEPTH + 1 →
      errCode (descendAll (createDefaultContext "a0" "s") ["a1", "a2", "a3", "a4", "a5", "a6"]) =
        some .DELEGATION_DEPTH_EXCEEDED)) :=
  ⟨by decide,
   c1_depth_limit { depth := 5, agentStack := ["x"], rootSessionId := "r" } "y"
     "a0" "s" ["a1", "a2", "a3", "a4", "a5", "a6"] (by decide)⟩

/-- C2: when the depth check passes, `createChildContext` with a child
already anywhere in the parent chain fails with
`DELEGATION_CYCLE_DETECTED` and reports the chain `parent chain ++ [child]`;
the degenerate self-delegation from a depth-0 root fails the same way with
chain `[agent, agent]`; and the scenario planner → coder → reviewer →
planner fails with the reported chain
`[planner, coder, reviewer, planner]`. -/
theorem c2_cycle_detection (parent : ExecutionContext) (child : String)
    (hd : parent.depth + 1 ≤ MAX_DELEGATION_DEPTH)
    (hc : child ∈ parent.agentStack) :
    (errCode (createChildContext parent child) =
        some .DELEGATION_CYCLE_DETECTED ∧
      errChain (createChildContext parent child) =
        some (parent.agentStack ++ [child])) ∧
    (∀ s r, errCode (createChildContext (createDefaultContext s r) s) =
        some .DELEGATION_CYCLE_DETECTED ∧
      errChain (createChildContext (createDefaultContext s r) s) =
        some [s, s]) ∧
    (errCode (descendAll (createDefaultContext "planner" "root-session")
        ["coder", "reviewer", "planner"]) =
        some .DELEGATION_CYCLE_DETECTED ∧
      errChain (descendAll (createDefaultContext "planner" "root-session")
        ["coder", "reviewer", "planner"]) =
        some ["planner", "coder", "reviewer", "planner"]) := by
  have h1 : ¬ (parent.depth + 1 > MAX_DELEGATION_DEPTH) := by omega
  refine ⟨?_, ?_, by decide⟩
  · simp [createChildContext, h1, hc, errCode, errChain]
  · intro s r
    simp [createChildContext, createDefaultContext, MAX_DELEGATION_DEPTH,
      errCode, errChain]

theorem c2_cycle_detection_witness :
    ((1 : Nat) + 1 ≤ MAX_DELEGATION_DEPTH ∧
      "p" ∈ ({ depth := 1, agentStack := ["p", "q"], rootSessionId := "r" }
        : ExecutionContext).agentStack) ∧
    ((errCode (createChildContext
          { depth := 1, agentStack := ["p", "q"], rootSessionId := "r" } "p") =
        some .DELEGATION_CYCLE_DETECTED ∧
      errChain (createChildContext
          { depth := 1, agentStack := ["p", "q"], rootSessionId := "r" } "p") =
        some (["p", "q"] ++ ["p"])) ∧
    (∀ s r, errCode (createChildContext (createDefaultContext s r) s) =
        some .DELEGATION_CYCLE_DETECTED ∧
      errChain (createChildContext (createDefaultContext s r) s) =
        some [s, s]) ∧
    (errCode (descendAll (createDefaultContext "planner" "root-session")
        ["coder", "reviewer", "planner"]) =
        some .DELEGATION_CYCLE_DETECTED ∧
      errChain (descendAll (createDefaultContext "planner" "root-session")
        ["coder", "reviewer", "planner"]) =
        some ["planner", "coder", "reviewer", "planner"])) :=
  ⟨⟨by decide, by decide⟩,
   c2_cycle_detection
     { depth := 1, agentStack := ["p", "q"], rootSessionId := "r" } "p"
     (by decide) (by decide)⟩

/-! ## Helper lemmas: session store -/

theorem save_get_self (st : SessionStore) (sid a t : String)
    (q : Option Query) (now : Nat) (info : SessionInfo)
    (h : mapGet st.sessions sid = some info) :
    mapGet (st.save sid a t q now).sessions sid =
      some { session_id := sid, agent := a,
             initial_task := info.initial_task,
             created_at := info.created_at,
             last_active := now, is_active := q.isSome } := by
  simp [SessionStore.save, h, mapGet_mapSet_self]

theorem save_get_self_new (st : SessionStore) (sid a t : String)
    (q : Option Query) (now : Nat)
    (h : mapGet st.sessions sid = none) :
    mapGet (st.save sid a t q now).sessions sid =
      some { session_id := sid, agent := a, initial_task := t,
             created_at := now, last_active := now,
             is_active := q.isSome } := by
  simp [SessionStore.save, h, mapGet_mapSet_self]

theorem complete_queries (st : SessionStore) (sid : String) (now : Nat) :
    mapGet (st.complete sid now).activeQueries sid = none := by
  simp only [SessionStore.complete]
  cases h : mapGet st.sessions sid <;> exact mapGet_mapDelete_self _ _

theorem complete_sessions_some (st : SessionStore) (sid : String) (now : Nat)
    (info : SessionInfo) (h : mapGet st.sessions sid = some info) :
    mapGet (st.complete sid now).sessions sid =
      some { info with is_active := false, last_active := now } := by
  simp [SessionStore.complete, h, mapGet_mapSet_self]

theorem invActive_save (st : SessionStore) (sid a t : String)
    (q : Option Query) (now : Nat) (hInv : StoreInvActive st) :
    StoreInvActive (st.save sid a t q now) := by
  intro sid' info' hget hact
  by_cases hs : sid' = sid
  · subst hs
    cases q with
    | some qq =>
        simp [SessionStore.save, mapGet_mapSet_self]
    | none =>
        cases hx : mapGet st.sessions sid' with
        | some old =>
            rw [save_get_self st sid' a t none now old hx] at hget
            simp at hget
            rw [← hget] at hact
            simp at hact
        | none =>
            rw [save_get_self_new st sid' a t none now hx] at hget
            simp at hget
            rw [← hget] at hact
            simp at hact
  · have hget' : mapGet st.sessions sid' = some info' := by
      simpa [SessionStore.save, mapGet_mapSet_ne _ _ _ _ hs] using hget
    have := hInv sid' info' hget' hact
    cases q with
    | some qq => simpa [SessionStore.save, mapGet_mapSet_ne _ _ _ _ hs] using this
    | none => simpa [SessionStore.save] using this

theorem inv_save_some (st : SessionStore) (sid a t : String) (qq : Query)
    (now : Nat) (hInv : StoreInv st) :
    StoreInv (st.save sid a t (some qq) now) := by
  intro sid' info' hget
  by_cases hs : sid' = sid
  · subst hs
    cases hx : mapGet st.sessions sid' with
    | some old =>
        rw [save_get_self st sid' a t (some qq) now old hx] at hget
        simp at hget
        rw [← hget]
        simp [SessionStore.save, mapGet_mapSet_self]
    | none =>
        rw [save_get_self_new st sid' a t (some qq) now hx] at hget
        simp at hget
        rw [← hget]
        simp [SessionStore.save, mapGet_mapSet_self]
  · have hget' : mapGet st.sessions sid' = some info' := by
      simpa [SessionStore.save, mapGet_mapSet_ne _ _ _ _ hs] using hget
    have := hInv sid' info' hget'
    simpa [SessionStore.save, mapGet_mapSet_ne _ _ _ _ hs] using this

theorem inv_save_none (st : SessionStore) (sid a t : String) (now : Nat)
    (hInv : StoreInv st) (hq : mapGet st.activeQueries sid = none) :
    StoreInv (st.save sid a t none now) := by
  intro sid' info' hget
  by_cases hs : sid' = sid
  · subst hs
    cases hx : mapGet st.sessions sid' with
    | some old =>
        rw [save_get_self st sid' a t none now old hx] at hget
        simp at hget
        rw [← hget]
        simp [SessionStore.save, hq]
    | none =>
        rw [save_get_self_new st sid' a t none now hx] at hget
        simp at hget
        rw [← hget]
        simp [SessionStore.save, hq]
  · have hget' : mapGet st.sessions sid' = some info' := by
      simpa [SessionStore.save, mapGet_mapSet_ne _ _ _ _ hs] using hget
    have := hInv sid' info' hget'
    simpa [SessionStore.save] using this

theorem inv_complete (st : SessionStore) (sid : String) (now : Nat)
    (hInv : StoreInv st) : StoreInv (st.complete sid now) := by
  intro sid' info' hget
  by_cases hs : sid' = sid
  · subst hs
    rw [complete_queries]
    cases hx : mapGet st.sessions sid' with
    | some old =>
        rw [complete_sessions_some st sid' now old hx] at hget
        simp at hget
        rw [← hget]
        simp
    | none =>
        simp only [SessionStore.complete, hx] at hget
        simp at hget
  · have hget' : mapGet st.sessions sid' = some info' := by
      cases hx : mapGet st.sessions sid with
      | some old => simpa [SessionStore.complete, hx, mapGet_mapSet_ne _ _ _ _ hs] using hget
      | none => simpa [SessionStore.complete, hx] using hget
    have := hInv sid' info' hget'
    simpa [SessionStore.complete, mapGet_mapDelete_ne _ _ _ hs] using this

theorem inv_cancel (st : SessionStore) (sid : String) (b : Bool) (now : Nat)
    (hInv : StoreInv st) : StoreInv (st.cancel sid b now).1 := by
  simp only [SessionStore.cancel]
  cases hq : mapGet st.activeQueries sid with
  | some q => cases b <;> simpa using inv_complete st sid now hInv
  | none => simpa using hInv

theorem inv_remove (st : SessionStore) (sid : String)
    (hInv : StoreInv st) : StoreInv (st.remove sid).1 := by
  intro sid' info' hget
  by_cases hs : sid' = sid
  · subst hs
    rw [show (st.remove sid').1.sessions = mapDelete st.sessions sid' from rfl,
      mapGet_mapDelete_self] at hget
    simp at hget
  · have hget' : mapGet st.sessions sid' = some info' := by
      simpa [SessionStore.remove, mapGet_mapDelete_ne _ _ _ hs] using hget
    have := hInv sid' info' hget'
    simpa [SessionStore.remove, mapGet_mapDelete_ne _ _ _ hs] using this

theorem inv_empty : StoreInv emptyStore := by
  intro sid info h
  simp [emptyStore, mapGet] at h

theorem invActive_of_inv (st : SessionStore) (hInv : StoreInv st) :
    StoreInvActive st :=
  fun sid info hget hact => (hInv sid info hget).mp hact

theorem invActive_complete (st : SessionStore) (sid : String) (now : Nat)
    (hInv : StoreInvActive st) : StoreInvActive (st.complete sid now) := by
  intro sid' info' hget hact
  by_cases hs : sid' = sid
  · subst hs
    cases hx : mapGet st.sessions sid' with
    | some old =>
        rw [complete_sessions_some st sid' now old hx] at hget
        simp at hget
        rw [← hget] at hact
        simp at hact
    | none =>
        simp only [SessionStore.complete, hx] at hget
        simp at hget
  · have hget' : mapGet st.sessions sid' = some info' := by
      cases hx : mapGet st.sessions sid with
      | some old => simpa [SessionStore.complete, hx, mapGet_mapSet_ne _ _ _ _ hs] using hget
      | none => simpa [SessionStore.complete, hx] using hget
    have := hInv sid' info' hget' hact
    simpa [SessionStore.complete, mapGet_mapDelete_ne _ _ _ hs] using this

theorem invActive_cancel (st : SessionStore) (sid : String) (b : Bool)
    (now : Nat) (hInv : StoreInvActive st) :
    StoreInvActive (st.cancel sid b now).1 := by
  simp only [SessionStore.cancel]
  cases hq : mapGet st.activeQueries sid with
  | some q => cases b <;> simpa using invActive_complete st sid now hInv
  | none => simpa using hInv

theorem invActive_remove (st : SessionStore) (sid : String)
    (hInv : StoreInvActive st) : StoreInvActive (st.remove sid).1 := by
  intro sid' info' hget hact
  by_cases hs : sid' = sid
  · subst hs
    rw [show (st.remove sid').1.sessions = mapDelete st.sessions sid' from rfl,
      mapGet_mapDelete_self] at hget
    simp at hget
  · have hget' : mapGet st.sessions sid' = some info' := by
      simpa [SessionStore.remove, mapGet_mapDelete_ne _ _ _ hs] using hget
    have := hInv sid' info' hget' hact
    simpa [SessionStore.remove, mapGet_mapDelete_ne _ _ _ hs] using this

theorem invActive_applyOp (st : SessionStore) (op : StoreOp)
    (hInv : StoreInvActive st) : StoreInvActive (applyOp st op) := by
  cases op with
  | save sid a t q now => exact invActive_save st sid a t q now hInv
  | complete sid now => exact invActive_complete st sid now hInv
  | cancel sid b now => exact invActive_cancel st sid b now hInv
  | remove sid => exact invActive_remove st sid hInv
  | clear =>
      intro sid info h
      simp [applyOp, SessionStore.clear, emptyStore, mapGet] at h

theorem invActive_foldl (ops : List StoreOp) : ∀ (st : SessionStore),
    StoreInvActive st → StoreInvActive (ops.foldl applyOp st) := by
  induction ops with
  | nil => intro st h; exact h
  | cons op rest ih =>
      intro st h
      exact ih (applyOp st op) (invActive_applyOp st op h)

/-- C3: for every store state and session id, if a query handle is
registered then `cancel` returns `true` and — whether or not the interrupt
throws — releases the handle and marks any existing record inactive
(refreshing `last_active`); if no handle is registered, `cancel` returns
`false` and leaves the whole store unchanged. -/
theorem c3_cancel (st : SessionStore) (sid : String)
    (interruptThrows : Bool) (now : Nat) :
    ((mapGet st.activeQueries sid).isSome = true →
      (st.cancel sid interruptThrows now).2 = true ∧
      mapGet (st.cancel sid interruptThrows now).1.activeQueries sid = none ∧
      (∀ info, mapGet st.sessions sid = some info →
        mapGet (st.cancel sid interruptThrows now).1.sessions sid =
          some { info with is_active := false, last_active := now })) ∧
    ((mapGet st.activeQueries sid).isSome = false →
      st.cancel sid interruptThrows now = (st, false)) := by
  constructor
  · intro hq
    obtain ⟨q, hq⟩ := Option.isSome_iff_exists.mp hq
    refine ⟨?_, ?_, ?_⟩
    · simp only [SessionStore.cancel, hq]
      cases interruptThrows <;> simp
    · simp only [SessionStore.cancel, hq]
      cases interruptThrows <;> simpa using complete_queries st sid now
    · intro info hinfo
      simp only [SessionStore.cancel, hq]
      cases interruptThrows <;>
        simpa using complete_sessions_some st sid now info hinfo
  · intro hq
    have hn : mapGet st.activeQueries sid = none := by
      cases h : mapGet st.activeQueries sid with
      | some q => rw [h] at hq; simp at hq
      | none => rfl
    simp [SessionStore.cancel, hn]

theorem c3_cancel_witness :
    (let st : SessionStore :=
      { sessions :=
          [("s", { session_id := "s", agent := "a", initial_task := "t",
                   created_at := 0, last_active := 0, is_active := true })]
        activeQueries := [("s", 7)] }
    ((mapGet st.activeQueries "s").isSome = true →
      (st.cancel "s" true 3).2 = true ∧
      mapGet (st.cancel "s" true 3).1.activeQueries "s" = none ∧
      (∀ info, mapGet st.sessions "s" = some info →
        mapGet (st.cancel "s" true 3).1.sessions "s" =
          some { info with is_active := false, last_active := 3 })) ∧
    ((mapGet st.activeQueries "s").isSome = false →
      st.cancel "s" true 3 = (st, false))) :=
  c3_cancel
    { sessions :=
        [("s", { session_id := "s", agent := "a", initial_task := "t",
                 created_at := 0, last_active := 0, is_active := true })]
      activeQueries := [("s", 7)] } "s" true 3

/-- C4 counterexample: the state reached by saving session `"s"` with a
handle and then saving it again without one has a record with
`is_active = false` while its handle is still registered in
`activeQueries`, so the claimed invariant fails on a reachable state. -/
theorem c4_counterexample :
    (mapGet (runOps [.save "s" "a" "t" (some (0 : Query)) 0,
        .save "s" "a" "t" none 1]).sessions "s" =
      some { session_id := "s", agent := "a", initial_task := "t",
             created_at := 0, last_active := 1, is_active := false }) ∧
    mapGet (runOps [.save "s" "a" "t" (some (0 : Query)) 0,
        .save "s" "a" "t" none 1]).activeQueries "s" = some (0 : Query) ∧
    ¬ StoreInv (runOps [.save "s" "a" "t" (some (0 : Query)) 0,
        .save "s" "a" "t" none 1]) := by
  refine ⟨by decide, by decide, ?_⟩
  intro h
  have := (h "s"
    { session_id := "s", agent := "a", initial_task := "t",
      created_at := 0, last_active := 1, is_active := false }
    (by decide)).mpr (by decide)
  simp at this

/-- C4 (amended): in every store state reachable by `save`/`complete`/
`cancel`/`remove`/`clear` from the fresh store, every record with
`is_active = true` has a live handle registered; and the full two-sided
invariant (`is_active` iff handle registered) is preserved by every
operation except a handle-less `save` aimed at a session id that currently
has a registered handle — such a save marks the record inactive but leaves
the stale handle in `activeQueries`. -/
theorem c4_invariant (ops : List StoreOp) (st : SessionStore) (op : StoreOp)
    (hInv : StoreInv st)
    (hsave : ∀ sid a t now, op = StoreOp.save sid a t none now →
      mapGet st.activeQueries sid = none) :
    StoreInvActive (runOps ops) ∧ StoreInv (applyOp st op) := by
  constructor
  · exact invActive_foldl ops emptyStore (invActive_of_inv emptyStore inv_empty)
  · cases op with
    | save sid a t q now =>
        cases q with
        | some qq => exact inv_save_some st sid a t qq now hInv
        | none => exact inv_save_none st sid a t now hInv (hsave sid a t now rfl)
    | complete sid now => exact inv_complete st sid now hInv
    | cancel sid b now => exact inv_cancel st sid b now hInv
    | remove sid => exact inv_remove st sid hInv
    | clear =>
        intro sid info h
        simp [applyOp, SessionStore.clear, emptyStore, mapGet] at h

theorem c4_invariant_witness :
    (StoreInv emptyStore ∧
      (∀ sid a t now, StoreOp.complete "x" 2 = StoreOp.save sid a t none now →
        mapGet emptyStore.activeQueries sid = none)) ∧
    (StoreInvActive (runOps [.save "s" "a" "t" (some (0 : Query)) 0,
        .complete "s" 1]) ∧
      StoreInv (applyOp emptyStore (StoreOp.complete "x" 2))) :=
  ⟨⟨inv_empty, fun _ _ _ _ h => StoreOp.noConfusion h⟩,
   c4_invariant [.save "s" "a" "t" (some (0 : Query)) 0, .complete "s" 1]
     emptyStore (StoreOp.complete "x" 2) inv_empty
     (fun _ _ _ _ h => StoreOp.noConfusion h)⟩

/-! ## Helper lemmas: list ordering -/

theorem filter_orderedInsert (t : Nat) (s : SessionInfo)
    (l : List SessionInfo) :
    (List.orderedInsert lastActiveDescOrder s l).filter
        (fun x => x.last_active == t) =
      (s :: l).filter (fun x => x.last_active == t) := by
  induction l with
  | nil => simp [List.orderedInsert]
  | cons b l ih =>
      by_cases hr : lastActiveDescOrder s b
      · simp [List.orderedInsert, hr]
      · have hlt : s.last_active < b.last_active := by
          simp only [lastActiveDescOrder] at hr; omega
        simp only [List.orderedInsert, if_neg hr]
        by_cases hbt : b.last_active = t
        · have hst : ¬ (s.last_active = t) := by omega
          simp [List.filter_cons, hbt, hst, ih]
        · simp [List.filter_cons, hbt, ih]

theorem filter_insertionSort_eq (t : Nat) (l : List SessionInfo) :
    (List.insertionSort lastActiveDescOrder l).filter
        (fun x => x.last_active == t) =
      l.filter (fun x => x.last_active == t) := by
  induction l with
  | nil => rfl
  | cons b l ih =>
      simp only [List.insertionSort]
      rw [filter_orderedInsert]
      simp [List.filter_cons, ih]

/-- C8 (amended): for every store state, `list` with a non-empty agent
filter and/or `active_only = true` returns exactly the records matching the
filter, the result is sorted by `last_active` descending, and ties between
equal timestamps keep the underlying (insertion) order: for every
timestamp `t`, the subsequence of the result at `last_active = t` equals
the filtered ledger subsequence in original order. -/
theorem c8_list (st : SessionStore) (a : String) (ha : ¬ (a = ""))
    (agentFilter : Option String) (activeOnly : Option Bool) (t : Nat) :
    (∀ s, s ∈ st.list (some a) (some true) ↔
      (s ∈ st.sessions.map (fun p => p.2) ∧ s.agent = a ∧
        s.is_active = true)) ∧
    (∀ s, s ∈ st.list none (some true) ↔
      (s ∈ st.sessions.map (fun p => p.2) ∧ s.is_active = true)) ∧
    (∀ s, s ∈ st.list (some a) none ↔
      (s ∈ st.sessions.map (fun p => p.2) ∧ s.agent = a)) ∧
    List.Sorted lastActiveDescOrder (st.list agentFilter activeOnly) ∧
    (st.list agentFilter activeOnly).filter (fun x => x.last_active == t) =
      (listFiltered st agentFilter activeOnly).filter
        (fun x => x.last_active == t) := by
  have hne : (a == "") = false := by simp [ha]
  refine ⟨?_, ?_, ?_, ?_, ?_⟩
  · intro s
    simp [SessionStore.list, List.mem_insertionSort, listFiltered, hne,
      List.mem_filter, and_assoc]
    tauto
  · intro s
    simp [SessionStore.list, List.mem_insertionSort, listFiltered,
      List.mem_filter]
  · intro s
    simp [SessionStore.list, List.mem_insertionSort, listFiltered, hne,
      List.mem_filter]
  · exact List.sorted_insertionSort lastActiveDescOrder _
  · exact filter_insertionSort_eq t _

theorem c8_list_witness :
    (¬ ("alpha" = "")) ∧
    (let st : SessionStore :=
      { sessions :=
          [("s1", { session_id := "s1", agent := "alpha",
                    initial_task := "t1", created_at := 0, last_active := 5,
                    is_active := true }),
           ("s2", { session_id := "s2", agent := "beta",
                    initial_task := "t2", created_at := 1, last_active := 5,
                    is_active := false })]
        activeQueries := [("s1", 0)] }
    (∀ s, s ∈ st.list (some "alpha") (some true) ↔
      (s ∈ st.sessions.map (fun p => p.2) ∧ s.agent = "alpha" ∧
        s.is_active = true)) ∧
    (∀ s, s ∈ st.list none (some true) ↔
      (s ∈ st.sessions.map (fun p => p.2) ∧ s.is_active = true)) ∧
    (∀ s, s ∈ st.list (some "alpha") none ↔
      (s ∈ st.sessions.map (fun p => p.2) ∧ s.agent = "alpha")) ∧
    List.Sorted lastActiveDescOrder (st.list none none) ∧
    (st.list none none).filter (fun x => x.last_active == 5) =
      (listFiltered st none none).filter (fun x => x.last_active == 5)) :=
  ⟨by decide,
   c8_list
     { sessions :=
         [("s1", { session_id := "s1", agent := "alpha",
                   initial_task := "t1", created_at := 0, last_active := 5,
                   is_active := true }),
          ("s2", { session_id := "s2", agent := "beta",
                   initial_task := "t2", created_at := 1, last_active := 5,
                   is_active := false })]
       activeQueries := [("s1", 0)] } "alpha" (by decide) none none 5⟩

/-- C8 counterexample: `list` with the agent filter `""` is a truthiness
no-op in the source (`if (filter?.agent)`), so it returns a record whose
agent name is `"alpha" ≠ ""` instead of the (empty) subset with agent name
`""`. -/
theorem c8_counterexample :
    (let st : SessionStore :=
      { sessions := [("s1", { session_id := "s1", agent := "alpha",
                               initial_task := "t", created_at := 0,
                               last_active := 0, is_active := false })]
        activeQueries := [] }
    st.list (some "") none =
      [{ session_id := "s1", agent := "alpha", initial_task := "t",
         created_at := 0, last_active := 0, is_active := false }] ∧
    ¬ ("alpha" = "")) :=
  ⟨by decide, by decide⟩

/-! ## Helper lemmas: batch coordinator -/

theorem length_mapWithIndexFrom {α β : Type} (f : Nat → α → β) :
    ∀ (l : List α) (i : Nat), (mapWithIndexFrom f i l).length = l.length := by
  intro l
  induction l with
  | nil => intro i; rfl
  | cons a as ih => intro i; simp [mapWithIndexFrom, ih]

theorem getD_mapWithIndexFrom {α β : Type} (f : Nat → α → β) (d : β)
    (da : α) : ∀ (l : List α) (i j : Nat), j < l.length →
    (mapWithIndexFrom f i l).getD j d = f (i + j) (l.getD j da) := by
  intro l
  induction l with
  | nil => intro i j h; simp at h
  | cons a as ih =>
      intro i j h
      cases j with
      | zero => simp [mapWithIndexFrom]
      | succ j' =>
          simp only [mapWithIndexFrom, List.getD_cons_succ]
          rw [ih (i + 1) j' (by simpa using h)]
          congr 1
          omega

theorem filter_of_all_true {α : Type} (p : α → Bool) (d : α) :
    ∀ (R : List α),
    (∀ j, j < R.length → p (R.getD j d) = true) →
    R.filter p = R ∧ R.filter (fun r => !(p r)) = [] := by
  intro R
  induction R with
  | nil => intro _; exact ⟨rfl, rfl⟩
  | cons r R' ih =>
      intro hall
      have h0 : p r = true := by simpa using hall 0 (by simp)
      have hrest := ih (fun j hj => by simpa using hall (j + 1) (by simpa using hj))
      simp [List.filter_cons, h0, hrest.1, hrest.2]

theorem unique_fail_counts {α : Type} (p : α → Bool) (d : α) :
    ∀ (R : List α) (k : Nat), k < R.length →
    (∀ j, j < R.length → ((p (R.getD j d) = false) ↔ j = k)) →
    (R.filter p).length = R.length - 1 ∧
    (R.filter (fun r => !(p r))).length = 1 := by
  intro R
  induction R with
  | nil => intro k hk; simp at hk
  | cons r R' ih =>
      intro k hk hall
      have h0 := hall 0 (by simp)
      cases k with
      | zero =>
          have hr : p r = false := by simpa using h0.mpr rfl
          have hrest : ∀ j, j < R'.length → p (R'.getD j d) = true := by
            intro j hj
            have := hall (j + 1) (by simpa using hj)
            simp only [List.getD_cons_succ] at this
            cases hpj : p (R'.getD j d) with
            | true => rfl
            | false => exact absurd (this.mp hpj) (by omega)
          have := filter_of_all_true p d R' hrest
          simp [List.filter_cons, hr, this.1, this.2]
      | succ k' =>
          have hr : p r = true := by
            cases hpr : p r with
            | true => rfl
            | false => exact absurd (h0.mp hpr) (by omega)
          have hk' : k' < R'.length := by simpa using hk
          have hall' : ∀ j, j < R'.length →
              ((p (R'.getD j d) = false) ↔ j = k') := by
            intro j hj
            have := hall (j + 1) (by simpa using hj)
            simp only [List.getD_cons_succ] at this
            constructor
            · intro hpj; have := this.mp hpj; omega
            · intro hjk; exact this.mpr (by omega)
          have hrec := ih k' hk' hall'
          have hlen : 1 ≤ R'.length := by omega
          constructor
          · simp only [List.filter_cons, hr, if_pos, List.length_cons]
            rw [hrec.1]
            omega
          · simp [List.filter_cons, hr, hrec.2]

theorem runTask_duration (exec : Nat → BatchTask → Except String AgentResult)
    (dur : Nat → Nat) (j : Nat) (t : BatchTask) :
    (runTask exec dur j t).duration_ms = dur j := by
  simp only [runTask]
  cases exec j t <;> rfl


/-- C5: for every batch of N tasks (1 ≤ N ≤ 10) in which exactly one task
(index k) fails, `runAgentsBatch` returns exactly one result per task in
input order (result j is the outcome of task j), a task whose invocation
throws is converted into a failed task result rather than propagating, each
result carries its own per-task duration, and the aggregate reports
`succeeded = N - 1`, `failed = 1`, `all_success = false`, with every other
task's result present and successful. -/
theorem c5_batch_isolation
    (exec : Nat → BatchTask → Except String AgentResult)
    (dur : Nat → Nat) (totalDuration : Nat) (tasks : List BatchTask)
    (k : Nat) (hN1 : 1 ≤ tasks.length) (hN10 : tasks.length ≤ 10)
    (hk : k < tasks.length)
    (hfail : ∀ j, j < tasks.length →
      ((runTask exec dur j (tasks.getD j defaultBatchTask)).success = false
        ↔ j = k)) :
    (runAgentsBatch exec dur totalDuration tasks).results.length =
      tasks.length ∧
    (∀ j, j < tasks.length →
      (runAgentsBatch exec dur totalDuration tasks).results.getD j
          defaultBatchTaskResult =
        runTask exec dur j (tasks.getD j defaultBatchTask)) ∧
    (∀ j, j < tasks.length → ∀ em,
      exec j (tasks.getD j defaultBatchTask) = .error em →
      (runAgentsBatch exec dur totalDuration tasks).results.getD j
          defaultBatchTaskResult =
        { id := jsOrStr (tasks.getD j defaultBatchTask).id
            ("task-" ++ toString j)
          success := false
          session_id := "failed"
          summary := "Failed: " ++ em
          artifacts := none
          error := some em
          duration_ms := dur j }) ∧
    (runAgentsBatch exec dur totalDuration tasks).succeeded =
      tasks.length - 1 ∧
    (runAgentsBatch exec dur totalDuration tasks).failed = 1 ∧
    (runAgentsBatch exec dur totalDuration tasks).all_success = false ∧
    (∀ j, j < tasks.length → j ≠ k →
      ((runAgentsBatch exec dur totalDuration tasks).results.getD j
        defaultBatchTaskResult).success = true) ∧
    (∀ j, j < tasks.length →
      ((runAgentsBatch exec dur totalDuration tasks).results.getD j
        defaultBatchTaskResult).duration_ms = dur j) := by
  have hlen : (mapWithIndex (fun i t => runTask exec dur i t) tasks).length =
      tasks.length := length_mapWithIndexFrom _ tasks 0
  have hget : ∀ j, j < tasks.length →
      (mapWithIndex (fun i t => runTask exec dur i t) tasks).getD j
          defaultBatchTaskResult =
        runTask exec dur j (tasks.getD j defaultBatchTask) := by
    intro j hj
    have := getD_mapWithIndexFrom (fun i t => runTask exec dur i t)
      defaultBatchTaskResult defaultBatchTask tasks 0 j hj
    simpa using this
  have hcounts := unique_fail_counts (fun r => r.success)
    defaultBatchTaskResult
    (mapWithIndex (fun i t => runTask exec dur i t) tasks) k
    (by rw [hlen]; exact hk)
    (by intro j hj
        rw [hlen] at hj
        rw [hget j hj]
        exact hfail j hj)
  have hres : (runAgentsBatch exec dur totalDuration tasks).results =
      mapWithIndex (fun i t => runTask exec dur i t) tasks := rfl
  refine ⟨?_, ?_, ?_, ?_, ?_, ?_, ?_, ?_⟩
  · exact hlen
  · exact hget
  · intro j hj em hex
    rw [hres, hget j hj]
    simp only [runTask, List.getD] at hex ⊢
    rw [hex]
  · show ((mapWithIndex (fun i t => runTask exec dur i t) tasks).filter
        (fun r => r.success)).length = tasks.length - 1
    rw [hcounts.1, hlen]
  · show ((mapWithIndex (fun i t => runTask exec dur i t) tasks).filter
        (fun r => !r.success)).length = 1
    exact hcounts.2
  · show (((mapWithIndex (fun i t => runTask exec dur i t) tasks).filter
        (fun r => !r.success)).length == 0) = false
    rw [hcounts.2]
    rfl
  · intro j hj hjk
    rw [hres, hget j hj]
    cases hs : (runTask exec dur j (tasks.getD j defaultBatchTask)).success with
    | true => rfl
    | false => exact absurd ((hfail j hj).mp hs) hjk
  · intro j hj
    rw [hres, hget j hj]
    exact runTask_duration exec dur j (tasks.getD j defaultBatchTask)

theorem c5_batch_isolation_witness :
    ((1 ≤ c5TasksW.length ∧ c5TasksW.length ≤ 10 ∧ 1 < c5TasksW.length) ∧
      (∀ j, j < c5TasksW.length →
        ((runTask c5ExecW (fun i => 10 + i) j
            (c5TasksW.getD j defaultBatchTask)).success = false ↔ j = 1))) ∧
    ((runAgentsBatch c5ExecW (fun i => 10 + i) 99 c5TasksW).results.length =
      c5TasksW.length ∧
    (∀ j, j < c5TasksW.length →
      (runAgentsBatch c5ExecW (fun i => 10 + i) 99 c5TasksW).results.getD j
          defaultBatchTaskResult =
        runTask c5ExecW (fun i => 10 + i) j (c5TasksW.getD j defaultBatchTask)) ∧
    (∀ j, j < c5TasksW.length → ∀ em,
      c5ExecW j (c5TasksW.getD j defaultBatchTask) = .error em →
      (runAgentsBatch c5ExecW (fun i => 10 + i) 99 c5TasksW).results.getD j
          defaultBatchTaskResult =
        { id := jsOrStr (c5TasksW.getD j defaultBatchTask).id
            ("task-" ++ toString j)
          success := false
          session_id := "failed"
          summary := "Failed: " ++ em
          artifacts := none
          error := some em
          duration_ms := 10 + j }) ∧
    (runAgentsBatch c5ExecW (fun i => 10 + i) 99 c5TasksW).succeeded =
      c5TasksW.length - 1 ∧
    (runAgentsBatch c5ExecW (fun i => 10 + i) 99 c5TasksW).failed = 1 ∧
    (runAgentsBatch c5ExecW (fun i => 10 + i) 99 c5TasksW).all_success = false ∧
    (∀ j, j < c5TasksW.length → j ≠ 1 →
      ((runAgentsBatch c5ExecW (fun i => 10 + i) 99 c5TasksW).results.getD j
        defaultBatchTaskResult).success = true) ∧
    (∀ j, j < c5TasksW.length →
      ((runAgentsBatch c5ExecW (fun i => 10 + i) 99 c5TasksW).results.getD j
        defaultBatchTaskResult).duration_ms = 10 + j)) :=
  ⟨⟨by decide, by decide⟩,
   c5_batch_isolation c5ExecW (fun i => 10 + i) 99 c5TasksW 1
     (by decide) (by decide) (by decide) (by decide)⟩

/-- C7: the `run_agents_batch` handler rejects exactly when the task list
is absent, empty, or longer than 10, and executes the batch (on exactly the
given tasks) for every list of 1 to 10 tasks. -/
theorem c7_batch_validation
    (exec : Nat → BatchTask → Except String AgentResult)
    (dur : Nat → Nat) (totalDuration : Nat) (ts : List BatchTask) :
    ((∃ msg, runAgentsBatchHandler exec dur totalDuration (some ts) =
        .rejected msg) ↔ (ts.length = 0 ∨ ts.length > 10)) ∧
    (runAgentsBatchHandler exec dur totalDuration none =
      .rejected "Missing required parameter: tasks (non-empty array)") ∧
    (1 ≤ ts.length → ts.length ≤ 10 →
      runAgentsBatchHandler exec dur totalDuration (some ts) =
        .executed (runAgentsBatch exec dur totalDuration ts)) := by
  refine ⟨?_, rfl, ?_⟩
  · constructor
    · rintro ⟨msg, hmsg⟩
      by_contra hcon
      push_neg at hcon
      have h1 : (ts.length == 0) = false := by
        simp only [beq_eq_false_iff_ne, ne_eq]
        exact hcon.1
      have h2 : ¬ (ts.length > 10) := by
        have := hcon.2; omega
      simp [runAgentsBatchHandler, h1, h2] at hmsg
    · intro h
      rcases h with h | h
      · exact ⟨"Missing required parameter: tasks (non-empty array)",
          by simp [runAgentsBatchHandler, h]⟩
      · have h1 : (ts.length == 0) = false := by
          simp only [beq_eq_false_iff_ne, ne_eq]
          omega
        exact ⟨"Maximum 10 tasks per batch",
          by simp [runAgentsBatchHandler, h1, h]⟩
  · intro h1 h10
    have hz : (ts.length == 0) = false := by
      simp only [beq_eq_false_iff_ne, ne_eq]
      omega
    have hgt : ¬ (ts.length > 10) := by omega
    simp [runAgentsBatchHandler, hz, hgt]

theorem c7_batch_validation_witness :
    ((∃ msg, runAgentsBatchHandler c5ExecW (fun i => 10 + i) 99
        (some c5TasksW) = .rejected msg) ↔
      (c5TasksW.length = 0 ∨ c5TasksW.length > 10)) ∧
    (runAgentsBatchHandler c5ExecW (fun i => 10 + i) 99 none =
      .rejected "Missing required parameter: tasks (non-empty array)") ∧
    (1 ≤ c5TasksW.length → c5TasksW.length ≤ 10 →
      runAgentsBatchHandler c5ExecW (fun i => 10 + i) 99 (some c5TasksW) =
        .executed (runAgentsBatch c5ExecW (fun i => 10 + i) 99 c5TasksW)) :=
  c7_batch_validation c5ExecW (fun i => 10 + i) 99 c5TasksW

/-! ## Helper lemmas: agent invoker -/

theorem truthy_some (s : String) (hs : ¬ (s = "")) :
    truthy (some s) = true := by
  simp [truthy, hs]

theorem foldl_no_init (agentName taskText : String) (q : Query) (now : Nat) :
    ∀ (msgs : List SDKMessage), (∀ m ∈ msgs, isInit m = false) →
    ∀ (s : LoopState),
      ((msgs.foldl (fun acc m => stepMessage agentName taskText q now acc m)
          s).sessionId = s.sessionId ∧
       (msgs.foldl (fun acc m => stepMessage agentName taskText q now acc m)
          s).st = s.st) := by
  intro msgs
  induction msgs with
  | nil => intro _ s; exact ⟨rfl, rfl⟩
  | cons m rest ih =>
      intro hno s
      have hm := hno m (List.mem_cons_self m rest)
      have hstep :
          (stepMessage agentName taskText q now s m).sessionId =
            s.sessionId ∧
          (stepMessage agentName taskText q now s m).st = s.st := by
        cases m with
        | init sid => simp [isInit] at hm
        | resultSuccess r => exact ⟨rfl, rfl⟩
        | resultFailure e su => exact ⟨rfl, rfl⟩
        | assistant w => exact ⟨rfl, rfl⟩
        | other => exact ⟨rfl, rfl⟩
      have hrest := ih (fun x hx => hno x (List.mem_cons_of_mem _ hx))
        (stepMessage agentName taskText q now s m)
      simp only [List.foldl_cons]
      exact ⟨by rw [hrest.1, hstep.1], by rw [hrest.2, hstep.2]⟩

/-- C6 (amended): with a known agent and a non-empty resume id, `runAgent`
raises `SESSION_NOT_FOUND` when the id is absent from the ledger and
`SESSION_ALREADY_ACTIVE` when the session is active — in both cases for
every possible engine behaviour and with the state untouched, i.e. before
any external call; when the session exists and is inactive the run
proceeds (returns a result instead of raising); and when the engine then
re-establishes that session, the saved ledger record keeps the original
`initial_task` and `created_at` while `last_active` is updated. -/
theorem c6_resume (knownAgents : List String) (engine : EngineRun)
    (q : Query) (now : Nat) (st0 : AgentsState) (params : RunAgentParams)
    (ctx : Option ExecutionContext) (sid : String) (info : SessionInfo)
    (hr : params.resume = some sid) (hs : ¬ (sid = ""))
    (hknown : knownAgents.contains params.agent = true) :
    (st0.store.has sid = false →
      runAgent knownAgents engine q now st0 params ctx =
        (.error { code := .SESSION_NOT_FOUND
                  message := "Session not found: " ++ sid
                  chain := []
                  session_id := sid }, st0)) ∧
    (st0.store.has sid = true → st0.store.isActive sid = true →
      runAgent knownAgents engine q now st0 params ctx =
        (.error { code := .SESSION_ALREADY_ACTIVE
                  message := "Session " ++ sid ++
                    " is already active. Use cancel_agent first."
                  chain := []
                  session_id := sid }, st0)) ∧
    (st0.store.has sid = true → st0.store.isActive sid = false →
      ∃ r, (runAgent knownAgents engine q now st0 params ctx).1 =
        .ok r) ∧
    (engine.messages = [.init sid] → engine.thrown = none →
      st0.store.has sid = true → st0.store.isActive sid = false →
      mapGet st0.store.sessions sid = some info →
      mapGet ((runAgent knownAgents engine q now st0 params ctx).2).store.sessions
          sid =
        some { session_id := sid, agent := params.agent
               initial_task := info.initial_task
               created_at := info.created_at
               last_active := now, is_active := false }) := by
  have ht := truthy_some sid hs
  have hmem : params.agent ∈ knownAgents := by simpa using hknown
  refine ⟨?_, ?_, ?_, ?_⟩
  · intro hhas
    have hpre : runAgentPreflight knownAgents st0.store params =
        some { code := .SESSION_NOT_FOUND
               message := "Session not found: " ++ sid
               chain := []
               session_id := sid } := by
      simp [runAgentPreflight, hknown, hmem, hr, ht, hhas]
    simp [runAgent, hpre]
  · intro hhas hact
    have hpre : runAgentPreflight knownAgents st0.store params =
        some { code := .SESSION_ALREADY_ACTIVE
               message := "Session " ++ sid ++
                 " is already active. Use cancel_agent first."
               chain := []
               session_id := sid } := by
      simp [runAgentPreflight, hknown, hmem, hr, ht, hhas, hact]
    simp [runAgent, hpre]
  · intro hhas hact
    have hpre : runAgentPreflight knownAgents st0.store params = none := by
      simp [runAgentPreflight, hknown, hmem, hr, ht, hhas, hact]
    simp only [runAgent, hpre]
    cases engine.thrown with
    | none => exact ⟨_, rfl⟩
    | some m => exact ⟨_, rfl⟩
  · intro hmsg hth hhas hact hinfo
    have hpre : runAgentPreflight knownAgents st0.store params = none := by
      simp [runAgentPreflight, hknown, hmem, hr, ht, hhas, hact]
    have hsid : (sid == "") = false := by simp [hs]
    have hsave := save_get_self st0.store sid params.agent params.task
      (some q) now info hinfo
    simp only [runAgent, hpre, hmsg, hth, List.foldl_cons, List.foldl_nil]
    simp only [stepMessage, cleanupRun, hsid]
    simp only [Bool.false_eq_true, if_false]
    rw [complete_sessions_some _ sid now _ hsave]

/-- C6 counterexample: `runAgent` with the resume id `""` — an id that is
not present in the (empty) session ledger — does not raise
`SESSION_NOT_FOUND`: the truthiness guard `params.resume &&` skips both
session checks for an empty-string id and the run proceeds as a fresh
root. -/
theorem c6_counterexample :
    runAgent ["a"] { messages := [], thrown := none } 0 0
        { store := emptyStore, contexts := [] }
        { agent := "a", task := "t", resume := some "", fork := none }
        none =
      (.ok { success := true, session_id := "", summary := "No result",
             artifacts := none, error := none },
       { store := emptyStore, contexts := [] }) ∧
    emptyStore.has "" = false :=
  ⟨rfl, by decide⟩

theorem c6_resume_witness :
    (c6ParamsW.resume = some "s" ∧ ¬ ("s" = "") ∧
      (["a"].contains c6ParamsW.agent) = true) ∧
    ((c6StateW.store.has "s" = false →
      runAgent ["a"] c6EngineW 0 9 c6StateW c6ParamsW none =
        (.error { code := .SESSION_NOT_FOUND
                  message := "Session not found: " ++ "s"
                  chain := []
                  session_id := "s" }, c6StateW)) ∧
    (c6StateW.store.has "s" = true → c6StateW.store.isActive "s" = true →
      runAgent ["a"] c6EngineW 0 9 c6StateW c6ParamsW none =
        (.error { code := .SESSION_ALREADY_ACTIVE
                  message := "Session " ++ "s" ++
                    " is already active. Use cancel_agent first."
                  chain := []
                  session_id := "s" }, c6StateW)) ∧
    (c6StateW.store.has "s" = true → c6StateW.store.isActive "s" = false →
      ∃ r, (runAgent ["a"] c6EngineW 0 9 c6StateW c6ParamsW none).1 =
        .ok r) ∧
    (c6EngineW.messages = [.init "s"] → c6EngineW.thrown = none →
      c6StateW.store.has "s" = true → c6StateW.store.isActive "s" = false →
      mapGet c6StateW.store.sessions "s" = some c6InfoW →
      mapGet ((runAgent ["a"] c6EngineW 0 9 c6StateW c6ParamsW
          none).2).store.sessions "s" =
        some { session_id := "s", agent := c6ParamsW.agent
               initial_task := c6InfoW.initial_task
               created_at := c6InfoW.created_at
               last_active := 9, is_active := false })) :=
  ⟨⟨rfl, by decide, by decide⟩,
   c6_resume ["a"] c6EngineW 0 9 c6StateW c6ParamsW none "s" c6InfoW
     rfl (by decide) (by decide)⟩

/-- C9: when no execution context is registered for the calling session id,
`handleDelegation` does not fail for that reason: it proceeds with a
default depth-0 fallback context whose `rootSessionId` is the calling
session id (and agent stack `["unknown"]`), and — for any target agent
other than the placeholder name — the delegated run's outcome is returned,
with the child snapshot depth 1 and chain `["unknown", target]`. -/
theorem c9_orphan_delegation
    (run : String → String → Except String AgentResult)
    (contexts : List (String × ExecutionContext))
    (params : DelegateToAgentParams) (psid : String)
    (h : mapGet contexts psid = none) :
    handleDelegation run contexts params psid =
      handleDelegationWithContext run params
        (createDefaultContext "unknown" psid) ∧
    (createDefaultContext "unknown" psid).depth = 0 ∧
    (createDefaultContext "unknown" psid).rootSessionId = psid ∧
    (∀ res, ¬ (params.agent = "unknown") →
      run params.agent
          (enhancedDelegationTask params.task params.context_data) =
        .ok res →
      handleDelegation run contexts params psid =
        { success := res.success, agent := params.agent
          session_id := res.session_id, result := res.summary
          artifacts := res.artifacts, error := res.error
          context := { depth := 1, chain := ["unknown", params.agent] } }) := by
  have hfall : handleDelegation run contexts params psid =
      handleDelegationWithContext run params
        (createDefaultContext "unknown" psid) := by
    simp [handleDelegation, h]
  refine ⟨hfall, rfl, rfl, ?_⟩
  intro res hne hrun
  rw [hfall]
  have hchild : createChildContext (createDefaultContext "unknown" psid)
      params.agent =
      .ok { depth := 1, agentStack := ["unknown", params.agent],
            rootSessionId := psid } := by
    have := createChildContext_ok (createDefaultContext "unknown" psid)
      params.agent (by simp [createDefaultContext, MAX_DELEGATION_DEPTH])
      (by simpa [createDefaultContext] using hne)
    simpa [createDefaultContext] using this
  simp [handleDelegationWithContext, hchild, hrun]

theorem c9_orphan_delegation_witness :
    (mapGet ([] : List (String × ExecutionContext)) "sess" = none) ∧
    (handleDelegation c9RunW [] c9ParamsW "sess" =
      handleDelegationWithContext c9RunW c9ParamsW
        (createDefaultContext "unknown" "sess") ∧
    (createDefaultContext "unknown" "sess").depth = 0 ∧
    (createDefaultContext "unknown" "sess").rootSessionId = "sess" ∧
    (∀ res, ¬ (c9ParamsW.agent = "unknown") →
      c9RunW c9ParamsW.agent
          (enhancedDelegationTask c9ParamsW.task c9ParamsW.context_data) =
        .ok res →
      handleDelegation c9RunW [] c9ParamsW "sess" =
        { success := res.success, agent := c9ParamsW.agent
          session_id := res.session_id, result := res.summary
          artifacts := res.artifacts, error := res.error
          context := { depth := 1,
                       chain := ["unknown", c9ParamsW.agent] } })) :=
  ⟨rfl, c9_orphan_delegation c9RunW [] c9ParamsW "sess" rfl⟩

/-- C10: when the engine stream throws before any session-established
event, `runAgent` catches the error and returns `success = false` with the
sentinel session id `"unknown"`, leaving the registries (in particular the
session ledger) untouched — no record is created for the failed run; and a
batch task whose invocation throws is reported with the sentinel session id
`"failed"` and `success = false`. -/
theorem c10_error_sentinels (knownAgents : List String)
    (engine : EngineRun) (q : Query) (now : Nat) (st0 : AgentsState)
    (params : RunAgentParams) (ctx : Option ExecutionContext) (m : String)
    (hpre : runAgentPreflight knownAgents st0.store params = none)
    (hth : engine.thrown = some m)
    (hnoinit : ∀ msg ∈ engine.messages, isInit msg = false) :
    runAgent knownAgents engine q now st0 params ctx =
      (.ok { success := false, session_id := "unknown",
             summary := "Agent execution failed: " ++ m,
             artifacts := none, error := some m }, st0) ∧
    (∀ (exec : Nat → BatchTask → Except String AgentResult)
        (dur : Nat → Nat) (i : Nat) (t : BatchTask) (em : String),
      exec i t = .error em →
      (runTask exec dur i t).session_id = "failed" ∧
      (runTask exec dur i t).success = false) := by
  constructor
  · have hfold := foldl_no_init params.agent params.task q now
      engine.messages hnoinit
      { sessionId := "", result := "", artifacts := [],
        errorMessage := none, ectx := ctx, st := st0 }
    simp only [runAgent, hpre, hth]
    rw [Prod.ext_iff]
    constructor
    · simp [strOr, hfold.1]
    · simp [cleanupRun, hfold.1, hfold.2]
  · intro exec dur i t em hex
    simp [runTask, hex]

theorem c10_error_sentinels_witness :
    (runAgentPreflight ["a"] emptyStore
        { agent := "a", task := "t", resume := none, fork := none } =
      none ∧
    c10EngineW.thrown = some "ECONN" ∧
    (∀ msg ∈ c10EngineW.messages, isInit msg = false)) ∧
    (runAgent ["a"] c10EngineW 0 5 { store := emptyStore, contexts := [] }
        { agent := "a", task := "t", resume := none, fork := none } none =
      (.ok { success := false, session_id := "unknown",
             summary := "Agent execution failed: " ++ "ECONN",
             artifacts := none, error := some "ECONN" },
       { store := emptyStore, contexts := [] }) ∧
    (∀ (exec : Nat → BatchTask → Except String AgentResult)
        (dur : Nat → Nat) (i : Nat) (t : BatchTask) (em : String),
      exec i t = .error em →
      (runTask exec dur i t).session_id = "failed" ∧
      (runTask exec dur i t).success = false)) :=
  ⟨⟨by decide, rfl, by decide⟩,
   c10_error_sentinels ["a"] c10EngineW 0 5
     { store := emptyStore, contexts := [] }
     { agent := "a", task := "t", resume := none, fork := none } none
     "ECONN" (by decide) rfl (by decide)⟩
